import Mathlib

/-!
# Verification of the Audio Call Analyzer frontend

Shallow embedding of the React/TypeScript frontend of the audio call
analyzer (UploadForm, App, TranscriptView, IssuesView, ToneView and the
types in `types.ts`), together with theorems settling the claims about
upload validation, response handling and rendering.

Conventions of the embedding:
- A browser `File` is a record of its name, byte size and byte content;
  client-side code only ever reads `name` and `size`.
- JavaScript `String.prototype.split` with a one-character separator is
  embedded structurally on `List Char` (`jsSplit`), and
  `toLowerCase` on the ASCII range (`jsLowerChar`) — file extensions are
  ASCII, so this agrees with the JS semantics on all relevant inputs.
- `Math.round` on the ideal reals is embedded on `ℚ` as
  `⌊x + 1/2⌋` (round half toward positive infinity, as in JS).
- React `useState` setters are embedded by returning the new state from
  each handler; a handler is a pure function from its inputs to the state
  it leaves behind (plus, for the form, the upload it emits).
-/

namespace AudioCallAnalyzer

/-- A browser `File` as the client code sees it: a declared name, a byte
size, and the byte content (which the client-side validation never reads). -/
structure JSFile where
  name : String
  size : Nat
  content : List Nat
  deriving Repr, DecidableEq

/-- JavaScript `s.split(sep)` for a one-character separator, structurally on
the character list: `"a.mp3".split "."` is `["a", "mp3"]`, `".mp3".split "."`
is `["", "mp3"]`, `"a.".split "."` is `["a", ""]`, `"".split "."` is `[""]`.
The result is always nonempty, so `pop` never sees an empty array. -/
def jsSplit (sep : Char) : List Char → List (List Char)
  | [] => [[]]
  | c :: cs =>
    match jsSplit sep cs with
    | [] => [[c]]
    | h :: t => if c = sep then [] :: h :: t else (c :: h) :: t

/-- JavaScript `toLowerCase` on one character, restricted to the ASCII
range (the only case that matters for the extension check). -/
def jsLowerChar (c : Char) : Char :=
  if 'A' ≤ c ∧ c ≤ 'Z' then Char.ofNat (c.toNat + 32) else c

/-- `allowedTypes` from `UploadForm.tsx`: the accepted audio extensions. -/
def allowedTypes : List String := [".mp3", ".wav", ".m4a"]

/-- The extension computed by `handleFileSelect`:
`"." + file.name.split(".").pop()?.toLowerCase()`. -/
def fileExt (name : String) : String :=
  "." ++ String.mk (((jsSplit '.' name.data).getLastD []).map jsLowerChar)

/-- The state `handleFileSelect` leaves behind: the `selectedFile` and
`error` `useState` cells of `UploadForm`. -/
structure UploadFormState where
  selectedFile : Option JSFile
  error : String
  deriving Repr, DecidableEq

/-- The invalid-type error message set by `handleFileSelect`. -/
def invalidTypeMsg : String :=
  "Invalid file type. Allowed: " ++ String.intercalate ", " allowedTypes

/-- The over-size error message set by `handleFileSelect`. -/
def sizeLimitMsg : String := "File size exceeds 25 MB limit"

/-- `UploadForm.handleFileSelect`: checks the (lower-cased) extension
against `allowedTypes`, then the byte size against `25 * 1024 * 1024`;
on both checks passing it clears the error and selects the file. -/
def handleFileSelect (file : JSFile) : UploadFormState :=
  if fileExt file.name ∉ allowedTypes then
    { selectedFile := none, error := invalidTypeMsg }
  else if file.size > 25 * 1024 * 1024 then
    { selectedFile := none, error := sizeLimitMsg }
  else
    { selectedFile := some file, error := "" }

/-- `UploadForm.handleSubmit`: the upload emitted on a submit event, given
the current `selectedFile` cell and the `isProcessing` prop —
`if (selectedFile && !isProcessing) onUpload(selectedFile)`. -/
def handleSubmit (selectedFile : Option JSFile) (isProcessing : Bool) :
    Option JSFile :=
  match selectedFile with
  | some f => if isProcessing then none else some f
  | none => none

/-- A file `handleFileSelect` accepts: allowed extension and size within
the 25 MiB bound (inclusive, as the code's `>` comparison has it). -/
def validFile (file : JSFile) : Prop :=
  fileExt file.name ∈ allowedTypes ∧ file.size ≤ 25 * 1024 * 1024

instance (file : JSFile) : Decidable (validFile file) := by
  unfold validFile; infer_instance

/-- The events `UploadForm` reacts to. `selectFile` covers both the file
input's change event and a drop with a file present (both call
`handleFileSelect`); `noFile` covers a change or drop event whose file
list is empty (nothing happens); `submit` carries the `isProcessing`
prop at the time of the event; `reset` is the clear button. -/
inductive FormEvent where
  | selectFile (f : JSFile)
  | noFile
  | submit (isProcessing : Bool)
  | reset
  deriving Repr, DecidableEq

/-- One step of the `UploadForm` component: the next state of the
`selectedFile`/`error` cells, and the upload emitted to `onUpload`
(if any). -/
def formStep (s : UploadFormState) : FormEvent → UploadFormState × Option JSFile
  | .selectFile f => (handleFileSelect f, none)
  | .noFile => (s, none)
  | .submit isProcessing => (s, handleSubmit s.selectedFile isProcessing)
  | .reset => ({ selectedFile := none, error := "" }, none)

/-- The initial `useState` values of `UploadForm`. -/
def initialFormState : UploadFormState := { selectedFile := none, error := "" }

/-- The form states reachable from the initial state through any
interaction sequence. -/
inductive FormReachable : UploadFormState → Prop where
  | init : FormReachable initialFormState
  | step (s : UploadFormState) (e : FormEvent) :
      FormReachable s → FormReachable (formStep s e).1

/-- Invariant: in every reachable form state, a selected file has passed
`handleFileSelect`'s checks. -/
theorem reachable_selected_valid (s : UploadFormState) (hs : FormReachable s)
    (f : JSFile) (hf : s.selectedFile = some f) : validFile f := by
  induction hs generalizing f with
  | init => simp [initialFormState] at hf
  | step s e _ ih =>
    cases e with
    | selectFile g =>
      simp only [formStep] at hf
      unfold handleFileSelect at hf
      by_cases hext : fileExt g.name ∉ allowedTypes
      · simp [hext] at hf
      · by_cases hsz : g.size > 25 * 1024 * 1024
        · simp [hext, hsz] at hf
        · simp only [hext, if_true, if_false, hsz] at hf
          simp only [if_neg hext, if_neg hsz, Option.some.injEq] at hf
          subst hf
          exact ⟨not_not.mp hext, Nat.le_of_not_lt hsz⟩
    | noFile => exact ih f hf
    | submit p => exact ih f hf
    | reset => simp [formStep] at hf

/-! ## The response types of `types.ts` -/

/-- The `speaker` union type `"Agent" | "Customer"`. -/
inductive Speaker where
  | Agent
  | Customer
  deriving Repr, DecidableEq

/-- `TranscriptSegment` from `types.ts`. -/
structure TranscriptSegment where
  speaker : Speaker
  text : String
  start : ℚ
  «end» : ℚ
  deriving Repr, DecidableEq

/-- `Issue` from `types.ts`. -/
structure Issue where
  title : String
  details : String
  evidence : List String
  deriving Repr, DecidableEq

/-- `Tone` from `types.ts`. The TypeScript annotation restricts `label`
statically to the four-value union, but the value arrives at runtime from
the backend's JSON and can be any string; the embedding uses `String` so
that the out-of-enumeration behaviour of `ToneView` is expressible. -/
structure Tone where
  label : String
  confidence : ℚ
  evidence : List String
  deriving Repr, DecidableEq

/-- One role's statistics inside `SpeakerStatistics`. -/
structure SpeakerSideStats where
  segments : Nat
  duration_seconds : ℚ
  word_count : Nat
  deriving Repr, DecidableEq

/-- `SpeakerStatistics` from `types.ts`. -/
structure SpeakerStatistics where
  agent : SpeakerSideStats
  customer : SpeakerSideStats
  total_segments : Nat
  total_duration : ℚ
  deriving Repr, DecidableEq

/-- `Metadata` from `types.ts`. -/
structure Metadata where
  filename : String
  file_size_mb : ℚ
  processing_time_seconds : ℚ
  request_id : String
  timestamp : String
  segment_count : Nat
  speaker_statistics : SpeakerStatistics
  deriving Repr, DecidableEq

/-- `AnalysisResponse` from `types.ts`. The `metadata?: Metadata` field is
declared optional there, hence `Option Metadata` here. -/
structure AnalysisResponse where
  transcript : List TranscriptSegment
  issues : List Issue
  tone : Tone
  metadata : Option Metadata
  deriving Repr, DecidableEq

/-- `ProcessingState` from `types.ts`. -/
inductive ProcessingState where
  | idle
  | uploading
  | processing
  | success
  | error
  deriving Repr, DecidableEq

/-! ## `App.handleUpload` -/

/-- Result of parsing a non-ok response body in `handleUpload`:
`response.json()` either yields an object whose `detail` field is a
non-empty string or is missing/falsy, or rejects (in which case the code
substitutes `{detail: "Unknown error"}` via `.catch`). -/
inductive BodyParse where
  | parsed (detail : Option String)
  | unparsable
  deriving Repr, DecidableEq

/-- The message of the `Error` thrown for a non-ok response:
`errorData.detail || "HTTP error! status: " + response.status`, where a
failed body parse replaced `errorData` by `{detail: "Unknown error"}`. -/
def httpFailureMsg (status : Nat) : BodyParse → String
  | .parsed (some d) => d
  | .parsed none => "HTTP error! status: " ++ toString status
  | .unparsable => "Unknown error"

/-- What the `catch` block of `handleUpload` receives: an `Error` object
(whose `.message` is used) or any other thrown value (for which the
fallback message is used). -/
inductive Thrown where
  | errObj (msg : String)
  | nonError
  deriving Repr, DecidableEq

/-- The message the `catch` block surfaces:
`err instanceof Error ? err.message : "Failed to process audio"`. -/
def thrownMessage : Thrown → String
  | .errObj m => m
  | .nonError => "Failed to process audio"

/-- The possible outcomes of the `fetch` call in `handleUpload`: an ok
response whose JSON parses into an `AnalysisResponse`; a non-ok response
with its body-parse result; or a thrown error anywhere in the `try` block
(network failure, or the ok-path `response.json()` rejecting). -/
inductive FetchOutcome where
  | ok (result : AnalysisResponse)
  | httpFailure (status : Nat) (body : BodyParse)
  | thrown (t : Thrown)
  deriving Repr, DecidableEq

/-- An outcome on which the request fails (everything except `ok`). -/
def FetchOutcome.isFailure : FetchOutcome → Bool
  | .ok _ => false
  | .httpFailure _ _ => true
  | .thrown _ => true

/-- The `useState` cells of `App` after `handleUpload` settles. -/
structure AppState where
  st : ProcessingState
  data : Option AnalysisResponse
  error : String
  uploadedFileName : String
  deriving Repr, DecidableEq

/-- `App.handleUpload`: it first clears `error` and `data` and records the
file name, then runs the fetch; an ok + parsed response stores the result
and reaches `success`; every other outcome is caught, leaves `data` at
`null` and reaches `error` with only a message surfaced. -/
def handleUpload (file : JSFile) (outcome : FetchOutcome) : AppState :=
  match outcome with
  | .ok result =>
      { st := .success, data := some result, error := "",
        uploadedFileName := file.name }
  | .httpFailure status body =>
      { st := .error, data := none, error := httpFailureMsg status body,
        uploadedFileName := file.name }
  | .thrown t =>
      { st := .error, data := none, error := thrownMessage t,
        uploadedFileName := file.name }

/-! ## The result views -/

/-- One rendered row of the transcript list. -/
structure SegmentRow where
  speaker : Speaker
  text : String
  startLabel : ℚ
  endLabel : ℚ
  duration : ℚ
  deriving Repr, DecidableEq

/-- What `TranscriptView` renders: the empty-state card or the segment
list with its count badge. -/
inductive TranscriptRender where
  | emptyState (message : String)
  | segmentList (countBadge : Nat) (rows : List SegmentRow)
  deriving Repr, DecidableEq

/-- `TranscriptView`: `transcript.length === 0` yields the
"No transcript available" empty state; otherwise each segment is rendered
with its speaker, text, times and duration `end - start`. -/
def transcriptView (transcript : List TranscriptSegment) : TranscriptRender :=
  if transcript.length = 0 then
    .emptyState "No transcript available"
  else
    .segmentList transcript.length
      (transcript.map fun s =>
        { speaker := s.speaker, text := s.text, startLabel := s.start,
          endLabel := s.«end», duration := s.«end» - s.start })

/-- One rendered issue card (the shown number is 1-based `index + 1`). -/
structure IssueCard where
  shownNumber : Nat
  title : String
  details : String
  evidenceQuotes : List String
  deriving Repr, DecidableEq

/-- What `IssuesView` renders. -/
inductive IssuesRender where
  | emptyState (message : String)
  | issueList (countBadge : Nat) (cards : List IssueCard)
  deriving Repr, DecidableEq

/-- `IssuesView`: `issues.length === 0` yields the "No issues found"
empty state; otherwise each issue becomes a numbered card, with the
evidence block present only when the evidence list is non-empty. -/
def issuesView (issues : List Issue) : IssuesRender :=
  if issues.length = 0 then
    .emptyState "No issues found"
  else
    .issueList issues.length
      (issues.enum.map fun p =>
        { shownNumber := p.1 + 1, title := p.2.title, details := p.2.details,
          evidenceQuotes := p.2.evidence })

/-- One entry of `toneConfig` in `ToneView.tsx`: the CSS classes applied
for a tone label. -/
structure ToneStyle where
  bg : String
  text : String
  border : String
  progress : String
  deriving Repr, DecidableEq

/-- `toneConfig.Calm`. -/
def calmStyle : ToneStyle :=
  { bg := "bg-green-50", text := "text-green-700", border := "border-green-200",
    progress := "bg-green-500" }

/-- `toneConfig.Frustrated`. -/
def frustratedStyle : ToneStyle :=
  { bg := "bg-yellow-50", text := "text-yellow-700",
    border := "border-yellow-200", progress := "bg-yellow-500" }

/-- `toneConfig.Angry`. -/
def angryStyle : ToneStyle :=
  { bg := "bg-red-50", text := "text-red-700", border := "border-red-200",
    progress := "bg-red-500" }

/-- `toneConfig.Anxious`. -/
def anxiousStyle : ToneStyle :=
  { bg := "bg-purple-50", text := "text-purple-700",
    border := "border-purple-200", progress := "bg-purple-500" }

/-- The `toneConfig` record lookup: defined exactly on the four labels of
the enumeration. -/
def toneConfig (label : String) : Option ToneStyle :=
  if label = "Calm" then some calmStyle
  else if label = "Frustrated" then some frustratedStyle
  else if label = "Angry" then some angryStyle
  else if label = "Anxious" then some anxiousStyle
  else none

/-- `Math.round` on the ideal numbers: round half toward positive
infinity, as JavaScript does. -/
def jsRound (q : ℚ) : ℤ := ⌊q + 1 / 2⌋

/-- What `ToneView` renders: the label badge (the raw `tone.label` text),
the chosen style set, the percentage shown next to the badge, the
progress-bar width percentage, and the evidence block when present. -/
structure ToneRender where
  labelBadge : String
  style : ToneStyle
  displayedPercent : ℤ
  barWidthPercent : ℤ
  evidenceShown : Option (List String)
  deriving Repr, DecidableEq

/-- `ToneView`: `confidencePercent = Math.round(tone.confidence * 100)`;
`config = toneConfig[tone.label] || toneConfig.Calm`; the badge shows
`tone.label` verbatim; `confidencePercent` is used both as the displayed
percentage and as the bar width; the reasoning block renders only when
`tone.evidence` is non-empty. -/
def toneView (tone : Tone) : ToneRender :=
  let confidencePercent := jsRound (tone.confidence * 100)
  { labelBadge := tone.label,
    style := (toneConfig tone.label).getD calmStyle,
    displayedPercent := confidencePercent,
    barWidthPercent := confidencePercent,
    evidenceShown :=
      if tone.evidence.length > 0 then some tone.evidence else none }

/-- The success dashboard of `App`: the file-info header and the stats
cards render only under the `data.metadata &&` guards, while the tone,
issues and transcript cards always render. The header's shown filename is
`data.metadata.filename || uploadedFileName`. -/
structure Dashboard where
  fileInfoCard : Option (String × String)
  statsCards : Option Metadata
  toneCard : ToneRender
  issuesCard : IssuesRender
  transcriptCard : TranscriptRender
  deriving Repr, DecidableEq

/-- The `state === "success" && data` branch of `App`'s render, as a
function of the stored response and the remembered upload file name. -/
def successDashboard (r : AnalysisResponse) (uploadedFileName : String) :
    Dashboard :=
  { fileInfoCard := r.metadata.map fun m =>
      ((if m.filename = "" then uploadedFileName else m.filename),
        m.request_id),
    statsCards := r.metadata,
    toneCard := toneView r.tone,
    issuesCard := issuesView r.issues,
    transcriptCard := transcriptView r.transcript }

/-! ## Claim C1 — the 25 MiB size bound -/

/-- A well-formed audio file of exactly 26,214,400 bytes. -/
def boundaryMp3 : JSFile := { name := "call.mp3", size := 26214400, content := [] }

/-- Claim C1 counterexample: a `.mp3` file of exactly 26,214,400 bytes is
accepted by `handleFileSelect` (error cleared, file selected), so the
claimed rejection of every file of size ≥ 26,214,400 fails at the
boundary — the code's `>` comparison makes the bound inclusive. -/
theorem c1_boundary_accepted :
    boundaryMp3.size = 26214400 ∧
    handleFileSelect boundaryMp3 =
      { selectedFile := some boundaryMp3, error := "" } :=
  ⟨rfl, by decide⟩

/-- Claim C1 (amended): for a file with an accepted extension, a byte size
strictly greater than 26,214,400 is rejected with the size error and no
file remains selected, and any size at most 26,214,400 is not rejected for
size — the file is accepted. -/
theorem c1_size_limit (f : JSFile) (hext : fileExt f.name ∈ allowedTypes) :
    (26214400 < f.size →
      handleFileSelect f = { selectedFile := none, error := sizeLimitMsg }) ∧
    (f.size ≤ 26214400 →
      handleFileSelect f = { selectedFile := some f, error := "" }) := by
  have hb : (25 * 1024 * 1024 : ℕ) = 26214400 := by norm_num
  unfold handleFileSelect
  rw [hb]
  refine ⟨fun h => ?_, fun h => ?_⟩
  · rw [if_neg (not_not_intro hext), if_pos h]
  · rw [if_neg (not_not_intro hext), if_neg (Nat.not_lt.mpr h)]

/-- A `.WAV` file one byte over the bound. -/
def oversizeWav : JSFile := { name := "big.WAV", size := 26214401, content := [] }

/-- Claim C1 witness: the amended size theorem applied to a concrete
over-size file. -/
theorem c1_size_limit_witness :
    fileExt oversizeWav.name ∈ allowedTypes ∧
    ((26214400 < oversizeWav.size →
        handleFileSelect oversizeWav =
          { selectedFile := none, error := sizeLimitMsg }) ∧
      (oversizeWav.size ≤ 26214400 →
        handleFileSelect oversizeWav =
          { selectedFile := some oversizeWav, error := "" })) :=
  ⟨by decide, c1_size_limit oversizeWav (by decide)⟩

/-! ## Claim C2 — empty files -/

/-- An empty (zero-byte) `.mp3` file. -/
def emptyMp3 : JSFile := { name := "silent.mp3", size := 0, content := [] }

/-- Claim C2 counterexample: `handleFileSelect` accepts an empty `.mp3`
file — the error is cleared and the file becomes selected, so the claimed
client-side rejection of empty files does not happen. -/
theorem c2_empty_accepted :
    emptyMp3.size = 0 ∧
    handleFileSelect emptyMp3 =
      { selectedFile := some emptyMp3, error := "" } :=
  ⟨rfl, by decide⟩

/-- Claim C2 (amended): `handleFileSelect` performs no emptiness check;
every zero-byte file whose extension is allowed is accepted client-side
(error cleared, file selected). Rejection of empty files is left to the
backend's `ValidationError`. -/
theorem c2_no_empty_check (f : JSFile)
    (hext : fileExt f.name ∈ allowedTypes) (hsz : f.size = 0) :
    handleFileSelect f = { selectedFile := some f, error := "" } := by
  unfold handleFileSelect
  rw [if_neg (not_not_intro hext), if_neg (by omega : ¬ f.size > 25 * 1024 * 1024)]

/-- An empty `.m4a` file. -/
def voidM4a : JSFile := { name := "void.m4a", size := 0, content := [] }

/-- Claim C2 witness: the amended theorem applied to a concrete empty
file. -/
theorem c2_no_empty_check_witness :
    fileExt voidM4a.name ∈ allowedTypes ∧ voidM4a.size = 0 ∧
    handleFileSelect voidM4a = { selectedFile := some voidM4a, error := "" } :=
  ⟨by decide, rfl, c2_no_empty_check voidM4a (by decide) rfl⟩

/-! ## Claim C3 — presence of the four response fields -/

/-- A response with the three required fields and no metadata. -/
def responseNoMetadata : AnalysisResponse :=
  { transcript := [], issues := [],
    tone := { label := "Calm", confidence := 1, evidence := [] },
    metadata := none }

/-- The file whose upload produced `responseNoMetadata`. -/
def uploadedCall : JSFile := { name := "call1.mp3", size := 2048, content := [] }

/-- Claim C3 counterexample: the frontend's `AnalysisResponse` declares
`metadata?` optional, and `handleUpload` stores a metadata-less response
and reaches the `success` state with it — metadata is not always present
in a success response. -/
theorem c3_metadata_missing_in_success :
    (handleUpload uploadedCall (.ok responseNoMetadata)).st = .success ∧
    (handleUpload uploadedCall (.ok responseNoMetadata)).data =
      some responseNoMetadata ∧
    responseNoMetadata.metadata = none :=
  ⟨rfl, rfl, rfl⟩

/-- Claim C3 (amended): `transcript`, `issues` and `tone` are required and
always rendered on the success dashboard, while `metadata` is optional
(`metadata?` in `types.ts`) — the metadata-dependent header and stats
cards render exactly when it is present. -/
theorem c3_metadata_optional (r : AnalysisResponse) (fn : String) :
    (successDashboard r fn).toneCard = toneView r.tone ∧
    (successDashboard r fn).issuesCard = issuesView r.issues ∧
    (successDashboard r fn).transcriptCard = transcriptView r.transcript ∧
    (successDashboard r fn).statsCards = r.metadata ∧
    (successDashboard r fn).fileInfoCard.isSome = r.metadata.isSome := by
  refine ⟨rfl, rfl, rfl, rfl, ?_⟩
  rcases hm : r.metadata with _ | m <;> simp [successDashboard, hm]

/-! ## Claim C4 — out-of-enumeration tone labels -/

/-- The four labels of the `Tone` enumeration. -/
def toneLabels : List String := ["Calm", "Frustrated", "Angry", "Anxious"]

/-- A tone whose label lies outside the enumeration. -/
def excitedTone : Tone := { label := "Excited", confidence := 1, evidence := [] }

/-- Claim C4 counterexample: for the out-of-enumeration label `"Excited"`,
`ToneView` surfaces no error — the `|| toneConfig.Calm` fallback silently
substitutes Calm's visual treatment (while the badge shows the raw
label). -/
theorem c4_fallback_on_excited :
    excitedTone.label ∉ toneLabels ∧
    toneConfig excitedTone.label = none ∧
    (toneView excitedTone).style = calmStyle := by
  refine ⟨by decide, by decide, by decide⟩

/-- Claim C4 (amended): for every `Tone` whose label is outside
{Calm, Frustrated, Angry, Anxious}, `ToneView` does not surface an error:
it falls back to Calm's visual treatment (`|| toneConfig.Calm`) while
displaying the out-of-enumeration label text verbatim in the badge. -/
theorem c4_fallback_to_calm (t : Tone) (h : t.label ∉ toneLabels) :
    toneConfig t.label = none ∧
    (toneView t).style = calmStyle ∧
    (toneView t).labelBadge = t.label := by
  have h1 : t.label ≠ "Calm" := fun e => h (by simp [toneLabels, e])
  have h2 : t.label ≠ "Frustrated" := fun e => h (by simp [toneLabels, e])
  have h3 : t.label ≠ "Angry" := fun e => h (by simp [toneLabels, e])
  have h4 : t.label ≠ "Anxious" := fun e => h (by simp [toneLabels, e])
  have hc : toneConfig t.label = none := by
    unfold toneConfig
    rw [if_neg h1, if_neg h2, if_neg h3, if_neg h4]
  have hs : (toneView t).style = (toneConfig t.label).getD calmStyle := rfl
  exact ⟨hc, by rw [hs, hc]; rfl, rfl⟩

/-- Another tone outside the enumeration. -/
def boredTone : Tone := { label := "Bored", confidence := 0, evidence := [] }

/-- Claim C4 witness: the amended theorem applied to a concrete
out-of-enumeration tone. -/
theorem c4_fallback_to_calm_witness :
    boredTone.label ∉ toneLabels ∧
    (toneConfig boredTone.label = none ∧
      (toneView boredTone).style = calmStyle ∧
      (toneView boredTone).labelBadge = boredTone.label) :=
  ⟨by decide, c4_fallback_to_calm boredTone (by decide)⟩

/-! ## Claim C5 — all-or-nothing response handling -/

/-- Claim C5: `handleUpload` is all-or-nothing — the stored data is
non-null exactly in the `success` state, and on every failing fetch
outcome (non-ok status or thrown error) the final state is `error` with
`data` null. -/
theorem c5_all_or_nothing (file : JSFile) (o : FetchOutcome) :
    ((handleUpload file o).data ≠ none ↔
      (handleUpload file o).st = .success) ∧
    (o.isFailure = true →
      (handleUpload file o).st = .error ∧
      (handleUpload file o).data = none) := by
  cases o <;> simp [handleUpload, FetchOutcome.isFailure]

/-- A concrete upload file for the C5 witness. -/
def sampleUploadFile : JSFile := { name := "sample.mp3", size := 10, content := [] }

/-- Claim C5 witness: a concrete failing outcome (HTTP 500 with an
unparsable body) leaves `data` null in the `error` state. -/
theorem c5_all_or_nothing_witness :
    (FetchOutcome.httpFailure 500 .unparsable).isFailure = true ∧
    ((handleUpload sampleUploadFile (.httpFailure 500 .unparsable)).st =
        .error ∧
      (handleUpload sampleUploadFile (.httpFailure 500 .unparsable)).data =
        none) :=
  ⟨rfl, (c5_all_or_nothing sampleUploadFile (.httpFailure 500 .unparsable)).2 rfl⟩

/-! ## Claim C6 — the extension gate -/

/-- Claim C6: `handleFileSelect` accepts exactly the files whose
lower-cased extension is in `allowedTypes` (and whose size is within the
limit): an accepted file clears the error and becomes selected, and a file
whose lower-cased extension is outside the set gets the invalid-type error
with no file selected. -/
theorem c6_extension_gate (f : JSFile) :
    (fileExt f.name ∉ allowedTypes →
      handleFileSelect f = { selectedFile := none, error := invalidTypeMsg }) ∧
    (fileExt f.name ∈ allowedTypes → f.size ≤ 25 * 1024 * 1024 →
      handleFileSelect f = { selectedFile := some f, error := "" }) := by
  unfold handleFileSelect
  refine ⟨fun h => ?_, fun h hs => ?_⟩
  · rw [if_pos h]
  · rw [if_neg (not_not_intro h), if_neg (Nat.not_lt.mpr hs)]

/-- A mixed-case `.WaV` file, exercising case-insensitivity. -/
def mixedCaseWav : JSFile := { name := "Call.WaV", size := 100, content := [] }

/-- Claim C6 witness: the gate accepts a concrete mixed-case `.WaV` file
within the size limit. -/
theorem c6_extension_gate_witness :
    fileExt mixedCaseWav.name ∈ allowedTypes ∧
    mixedCaseWav.size ≤ 25 * 1024 * 1024 ∧
    handleFileSelect mixedCaseWav =
      { selectedFile := some mixedCaseWav, error := "" } :=
  ⟨by decide, by decide, (c6_extension_gate mixedCaseWav).2 (by decide) (by decide)⟩

/-! ## Claim C7 — empty-result rendering -/

/-- Claim C7: empty results are handled without failure — a transcript
with zero segments renders the "No transcript available" empty state and
an empty issue list renders the "No issues found" empty state (both view
functions are total). -/
theorem c7_empty_states :
    transcriptView [] = .emptyState "No transcript available" ∧
    issuesView [] = .emptyState "No issues found" :=
  ⟨rfl, rfl⟩

/-! ## Claim C8 — the confidence percentage -/

/-- Claim C8: for a confidence in `[0, 1]`, the percentage
`Math.round(confidence * 100)` computed by `ToneView` is an integer in
`[0, 100]`, and the same value is used as the displayed percentage and as
the progress-bar width. -/
theorem c8_confidence_percent_range (t : Tone)
    (h0 : 0 ≤ t.confidence) (h1 : t.confidence ≤ 1) :
    0 ≤ (toneView t).displayedPercent ∧
    (toneView t).displayedPercent ≤ 100 ∧
    (toneView t).barWidthPercent = (toneView t).displayedPercent := by
  have hd : (toneView t).displayedPercent = ⌊t.confidence * 100 + 1 / 2⌋ := rfl
  have hb : (toneView t).barWidthPercent = ⌊t.confidence * 100 + 1 / 2⌋ := rfl
  refine ⟨?_, ?_, by rw [hd, hb]⟩
  · rw [hd]
    apply Int.floor_nonneg.mpr
    nlinarith
  · rw [hd]
    have hlt : (t.confidence * 100 + 1 / 2 : ℚ) < ((101 : ℤ) : ℚ) := by
      push_cast
      nlinarith
    have := Int.floor_lt.mpr hlt
    omega

/-- A tone with full confidence. -/
def fullConfidenceTone : Tone := { label := "Angry", confidence := 1, evidence := [] }

/-- Claim C8 witness: the percentage-range theorem applied to a concrete
tone of confidence 1. -/
theorem c8_confidence_percent_range_witness :
    (0 : ℚ) ≤ fullConfidenceTone.confidence ∧
    fullConfidenceTone.confidence ≤ 1 ∧
    (0 ≤ (toneView fullConfidenceTone).displayedPercent ∧
      (toneView fullConfidenceTone).displayedPercent ≤ 100 ∧
      (toneView fullConfidenceTone).barWidthPercent =
        (toneView fullConfidenceTone).displayedPercent) :=
  ⟨by decide, by decide,
    c8_confidence_percent_range fullConfidenceTone (by decide) (by decide)⟩

/-! ## Claim C9 — no upload while processing or without a validated file -/

/-- Claim C9: in every reachable `UploadForm` state, a submit with
`isProcessing` set or with no selected file emits no upload, and whenever
a submit does emit an upload, `isProcessing` was false and the emitted
file had passed `handleFileSelect`'s validation. -/
theorem c9_submit_guard (s : UploadFormState) (hs : FormReachable s)
    (p : Bool) :
    ((p = true ∨ s.selectedFile = none) →
      (formStep s (.submit p)).2 = none) ∧
    (∀ f, (formStep s (.submit p)).2 = some f →
      p = false ∧ validFile f) := by
  constructor
  · rintro (rfl | hnone)
    · rcases hsf : s.selectedFile with _ | g <;>
        simp [formStep, handleSubmit, hsf]
    · simp [formStep, handleSubmit, hnone]
  · intro f hf
    rcases hsf : s.selectedFile with _ | g
    · simp [formStep, handleSubmit, hsf] at hf
    · cases p with
      | true => simp [formStep, handleSubmit, hsf] at hf
      | false =>
        simp only [formStep, handleSubmit, hsf, if_neg] at hf
        simp at hf
        subst hf
        exact ⟨rfl, reachable_selected_valid s hs g hsf⟩

/-- Claim C9 witness: the guard theorem applied at the (reachable)
initial state with `isProcessing = true`. -/
theorem c9_submit_guard_witness :
    FormReachable initialFormState ∧
    (((true = true ∨ initialFormState.selectedFile = none) →
        (formStep initialFormState (.submit true)).2 = none) ∧
      (∀ f, (formStep initialFormState (.submit true)).2 = some f →
        true = false ∧ validFile f)) :=
  ⟨.init, c9_submit_guard initialFormState .init true⟩

/-! ## Claim C10 — decision depends only on name and size -/

/-- Claim C10: the accept/reject decision of `handleFileSelect` depends
only on the file's name and byte size — two files with equal name and
equal size get the same error message and the same selected/not-selected
outcome, whatever their contents. -/
theorem c10_content_independent (f g : JSFile)
    (hname : f.name = g.name) (hsize : f.size = g.size) :
    (handleFileSelect f).error = (handleFileSelect g).error ∧
    (handleFileSelect f).selectedFile.isSome =
      (handleFileSelect g).selectedFile.isSome := by
  unfold handleFileSelect
  rw [hname, hsize]
  by_cases h1 : fileExt g.name ∉ allowedTypes
  · simp [h1]
  · by_cases h2 : g.size > 25 * 1024 * 1024 <;> simp [h1, h2]

/-- A four-byte `.mp3` file with one content. -/
def contentA : JSFile := { name := "same.mp3", size := 4, content := [1, 2, 3, 4] }

/-- A file with the same name and size as `contentA` and different
content. -/
def contentB : JSFile := { name := "same.mp3", size := 4, content := [9, 9, 9, 9] }

/-- Claim C10 witness: two concrete files that agree on name and size but
differ in content get the same decision. -/
theorem c10_content_independent_witness :
    contentA.name = contentB.name ∧ contentA.size = contentB.size ∧
    ((handleFileSelect contentA).error = (handleFileSelect contentB).error ∧
      (handleFileSelect contentA).selectedFile.isSome =
        (handleFileSelect contentB).selectedFile.isSome) :=
  ⟨rfl, rfl, c10_content_independent contentA contentB rfl rfl⟩

end AudioCallAnalyzer
